import Mathlib

/-!
Shallow embedding of the aegis sealing/unsealing engine.

The repository is a Go CLI that encrypts every regular file under a
directory (command `seal`, file `internal/cli/seal.go`) and decrypts it
back (command `unseal`).  Bytes are modelled as `Nat` (values 0..255 in
every real execution) and file contents as `List Nat`.

The cryptographic primitives (`golang.org/x/crypto/scrypt`, `crypto/aes`,
`crypto/cipher`) are external libraries, not repository code, so the
engine is parametrised by a `Crypto` record holding the key-derivation
function and the AEAD seal/open pair; theorems that need library
guarantees (GCM decrypt-of-encrypt, tag rejection under a different key)
take those guarantees as explicit hypotheses, instantiated on a small
executable instance in the witnesses.
-/

namespace Aegis

/-- A byte string, one `Nat` per byte. -/
abbrev Bytes := List Nat

/-- External cryptographic primitives used by both commands:
`kdf` models `scrypt.Key(password, salt, 1<<15, 8, 1, 32)`;
`aseal` and `aopen` model AES-256-GCM `gcm.Seal` / `gcm.Open`
applied as `(key, nonce, plaintext/ciphertext)` with no associated data. -/
structure Crypto where
  kdf : Bytes → Bytes → Bytes
  aseal : Bytes → Bytes → Bytes → Bytes
  aopen : Bytes → Bytes → Bytes → Option Bytes

/-- Artifact built for one file by `sealCmd` (seal.go lines 87-123):
derive the key from password and salt, build the envelope
`extension-bytes ++ 0x00 ++ plaintext`, encrypt it, and lay out
`salt ++ nonce ++ ciphertext`. -/
def sealArtifact (C : Crypto) (password salt nonce ext plaintext : Bytes) : Bytes :=
  let key := C.kdf password salt
  let envelope := ext ++ 0 :: plaintext
  let ciphertext := C.aseal key nonce envelope
  salt ++ nonce ++ ciphertext

/-- Per-file outcome of the decryption half of `unsealCmd`. -/
inductive UnsealResult where
  | malformed : UnsealResult
  | authFailed : UnsealResult
  | legacy (content : Bytes) : UnsealResult
  | ok (ext : Bytes) (plaintext : Bytes) : UnsealResult
deriving DecidableEq, Repr

/-- Index of the first `0x00` byte, mirroring the scan loop in
`unsealCmd` (`nullIndex`); `none` when no NUL byte occurs. -/
def nulIndex : Bytes → Option Nat
  | [] => none
  | b :: bs => if b = 0 then some 0 else (nulIndex bs).map (· + 1)

/-- Decryption of one artifact, mirroring `unsealCmd` lines 66-136:
reject byte strings shorter than `16 + 12` (salt plus GCM nonce) as
malformed; re-derive the key from the stored salt; split off nonce and
ciphertext; open with GCM (failure is the authentication failure); then
split the envelope at the first NUL, falling back to the legacy case
when no NUL is found.

`aes.NewCipher` and `cipher.NewGCM` cannot fail here: `scrypt.Key` is
called with `keyLen = 32`, a valid AES-256 key size, so those two
error branches of the Go code are unreachable and are not modelled.
`gcm.NonceSize()` is 12, so the second length check in the Go code
(`len(data) < 16+nonceSize`) repeats the first and is subsumed. -/
def unsealArtifact (C : Crypto) (password data : Bytes) : UnsealResult :=
  if data.length < 16 + 12 then .malformed
  else
    let salt := data.take 16
    let key := C.kdf password salt
    let nonce := (data.drop 16).take 12
    let ciphertext := data.drop (16 + 12)
    match C.aopen key nonce ciphertext with
    | none => .authFailed
    | some env =>
      match nulIndex env with
      | none => .legacy env
      | some i => .ok (env.take i) (env.drop (i + 1))

/-! Small executable crypto instance used by the witnesses: the key is a
padded copy of password and salt, encryption appends key and nonce as a
recoverable tag, decryption checks and strips that tag. -/

/-- Last `n` bytes of a byte string. -/
def rtakeB (l : Bytes) (n : Nat) : Bytes := l.drop (l.length - n)

/-- All but the last `n` bytes of a byte string. -/
def rdropB (l : Bytes) (n : Nat) : Bytes := l.take (l.length - n)

/-- Toy key derivation: 32 bytes drawn from password then salt, padded. -/
def toyKdf (password salt : Bytes) : Bytes :=
  (password ++ salt ++ List.replicate 32 0).take 32

/-- Toy AEAD encryption: append key and nonce as the tag. -/
def toySeal (key nonce m : Bytes) : Bytes := m ++ key ++ nonce

/-- Toy AEAD decryption: check the tag and strip it. -/
def toyOpen (key nonce c : Bytes) : Option Bytes :=
  if rtakeB c (key.length + nonce.length) = key ++ nonce then
    some (rdropB c (key.length + nonce.length))
  else none

/-- The toy instance packaged as a `Crypto`. -/
def toyCrypto : Crypto := ⟨toyKdf, toySeal, toyOpen⟩

/-! Helper lemmas for the round-trip proof. -/

lemma nulIndex_append (ext p : Bytes) (hext : ∀ b ∈ ext, b ≠ 0) :
    nulIndex (ext ++ 0 :: p) = some ext.length := by
  induction ext with
  | nil => simp [nulIndex]
  | cons a t ih =>
    have ha : a ≠ 0 := hext a (by simp)
    have ht : ∀ b ∈ t, b ≠ 0 := fun b hb => hext b (by simp [hb])
    simp [nulIndex, ha, ih ht]

lemma take_sep (ext p : Bytes) : (ext ++ 0 :: p).take ext.length = ext := by
  exact List.take_left ext (0 :: p)

lemma drop_sep (ext p : Bytes) : (ext ++ 0 :: p).drop (ext.length + 1) = p := by
  have h : ext ++ 0 :: p = (ext ++ [0]) ++ p := by simp
  have hl : (ext ++ [0]).length = ext.length + 1 := by simp
  rw [h, ← hl, List.drop_left]

/-- C1. Round-trip: unsealing the artifact produced by sealing plaintext
`p` with extension `ext` under password `pw` recovers `(ext, p)` exactly,
for every plaintext (including the empty one) and every NUL-free
extension, given the AEAD decrypt-of-encrypt guarantee for the derived
key on the envelope. -/
theorem unseal_seal_roundtrip
    (C : Crypto) (pw salt nonce ext p : Bytes)
    (hs : salt.length = 16) (hn : nonce.length = 12)
    (hext : ∀ b ∈ ext, b ≠ 0)
    (hopen : C.aopen (C.kdf pw salt) nonce
        (C.aseal (C.kdf pw salt) nonce (ext ++ 0 :: p)) = some (ext ++ 0 :: p)) :
    unsealArtifact C pw (sealArtifact C pw salt nonce ext p) = .ok ext p := by
  set ct := C.aseal (C.kdf pw salt) nonce (ext ++ 0 :: p) with hct
  have hdata : sealArtifact C pw salt nonce ext p = salt ++ (nonce ++ ct) := by
    simp [sealArtifact, hct]
  have hlen : (salt ++ (nonce ++ ct)).length = 28 + ct.length := by
    simp [hs, hn]; omega
  have hnotlt : ¬ (salt ++ (nonce ++ ct)).length < 16 + 12 := by omega
  have h1 : (salt ++ (nonce ++ ct)).take 16 = salt := by
    rw [← hs]; exact List.take_left salt (nonce ++ ct)
  have h2 : ((salt ++ (nonce ++ ct)).drop 16).take 12 = nonce := by
    rw [← hs, List.drop_left, ← hn]; exact List.take_left nonce ct
  have h3 : (salt ++ (nonce ++ ct)).drop (16 + 12) = ct := by
    have hl : (salt ++ nonce).length = 16 + 12 := by simp [hs, hn]
    rw [show salt ++ (nonce ++ ct) = (salt ++ nonce) ++ ct by simp, ← hl]
    exact List.drop_left (salt ++ nonce) ct
  rw [hdata]
  unfold unsealArtifact
  rw [if_neg hnotlt]
  simp only [h1, h2, h3, hopen, nulIndex_append ext p hext, take_sep, drop_sep]

/-- Witness for C1 at a concrete plaintext containing an interior NUL. -/
theorem unseal_seal_roundtrip_witness :
    unsealArtifact toyCrypto [1]
      (sealArtifact toyCrypto [1] (List.replicate 16 2) (List.replicate 12 3)
        [46, 116] [104, 0, 105]) = .ok [46, 116] [104, 0, 105] :=
  unseal_seal_roundtrip toyCrypto [1] (List.replicate 16 2) (List.replicate 12 3)
    [46, 116] [104, 0, 105] (by decide) (by decide) (by decide) (by decide)

/-- C2. Wrong-password rejection: when GCM opening under the key derived
from the second password rejects the ciphertext sealed under the first
password (the AEAD tag-check guarantee for distinct keys), unsealing
fails with the authentication failure; moreover the password enters
`unsealArtifact` only through the derived key, so two passwords whose
derived keys coincide are indistinguishable — there is no separate
password check anywhere in the unseal path. -/
theorem wrong_password_rejected
    (C : Crypto) (pw1 pw2 salt nonce ext p : Bytes)
    (_hne : pw1 ≠ pw2)
    (hs : salt.length = 16) (hn : nonce.length = 12)
    (hopen : C.aopen (C.kdf pw2 salt) nonce
        (C.aseal (C.kdf pw1 salt) nonce (ext ++ 0 :: p)) = none) :
    unsealArtifact C pw2 (sealArtifact C pw1 salt nonce ext p) = .authFailed
    ∧ ∀ (pw pw' data : Bytes), C.kdf pw (data.take 16) = C.kdf pw' (data.take 16) →
        unsealArtifact C pw data = unsealArtifact C pw' data := by
  constructor
  · set ct := C.aseal (C.kdf pw1 salt) nonce (ext ++ 0 :: p) with hct
    have hdata : sealArtifact C pw1 salt nonce ext p = salt ++ (nonce ++ ct) := by
      simp [sealArtifact, hct]
    have hlen : (salt ++ (nonce ++ ct)).length = 28 + ct.length := by
      simp [hs, hn]; omega
    have hnotlt : ¬ (salt ++ (nonce ++ ct)).length < 16 + 12 := by omega
    have h1 : (salt ++ (nonce ++ ct)).take 16 = salt := by
      rw [← hs]; exact List.take_left salt (nonce ++ ct)
    have h2 : ((salt ++ (nonce ++ ct)).drop 16).take 12 = nonce := by
      rw [← hs, List.drop_left, ← hn]; exact List.take_left nonce ct
    have h3 : (salt ++ (nonce ++ ct)).drop (16 + 12) = ct := by
      have hl : (salt ++ nonce).length = 16 + 12 := by simp [hs, hn]
      rw [show salt ++ (nonce ++ ct) = (salt ++ nonce) ++ ct by simp, ← hl]
      exact List.drop_left (salt ++ nonce) ct
    rw [hdata]
    unfold unsealArtifact
    rw [if_neg hnotlt]
    simp only [h1, h2, h3, hopen]
  · intro pw pw' data h
    simp only [unsealArtifact, h]

/-- Witness for C2 at concrete distinct passwords. -/
theorem wrong_password_rejected_witness :
    unsealArtifact toyCrypto [2]
      (sealArtifact toyCrypto [1] (List.replicate 16 2) (List.replicate 12 3)
        [46, 116] [104, 105]) = .authFailed
    ∧ ∀ (pw pw' data : Bytes),
        toyCrypto.kdf pw (data.take 16) = toyCrypto.kdf pw' (data.take 16) →
        unsealArtifact toyCrypto pw data = unsealArtifact toyCrypto pw' data :=
  wrong_password_rejected toyCrypto [1] [2] (List.replicate 16 2) (List.replicate 12 3)
    [46, 116] [104, 105] (by decide) (by decide) (by decide) (by decide)

/-- C8. Malformed-input guard: every artifact shorter than `16 + 12`
bytes (salt plus GCM nonce) is rejected as malformed, and the result
does not depend on the `Crypto` instance or the password at all — the
length check precedes the `scrypt` call, so no key is ever derived. -/
theorem short_artifact_malformed
    (C C' : Crypto) (pw pw' data : Bytes) (h : data.length < 16 + 12) :
    unsealArtifact C pw data = .malformed
    ∧ unsealArtifact C pw data = unsealArtifact C' pw' data := by
  constructor
  · unfold unsealArtifact; rw [if_pos h]
  · unfold unsealArtifact; rw [if_pos h, if_pos h]

/-- Witness for C8 at a concrete 27-byte artifact. -/
theorem short_artifact_malformed_witness :
    unsealArtifact toyCrypto [1] (List.replicate 27 5) = .malformed
    ∧ unsealArtifact toyCrypto [1] (List.replicate 27 5) =
        unsealArtifact ⟨fun _ _ => [], fun _ _ _ => [], fun _ _ _ => none⟩ [9]
          (List.replicate 27 5) :=
  short_artifact_malformed toyCrypto ⟨fun _ _ => [], fun _ _ _ => [], fun _ _ _ => none⟩
    [1] [9] (List.replicate 27 5) (by decide)

/-! Filesystem and run model.

Path helpers mirror the Go standard-library calls used by the two
commands (`filepath.Ext`, `strings.TrimSuffix`, `strings.HasSuffix`,
`filepath.Join` with `filepath.Dir`/`filepath.Base`).  Entry names are
assumed to contain no path separator, so applying the extension helpers
to the base name agrees with applying them to the full path. -/

/-- String to bytes, modelling Go `[]byte(s)` for ASCII names. -/
def strToBytes (s : String) : Bytes := s.toList.map Char.toNat

/-- Bytes to string, modelling Go `string(b)` for ASCII content. -/
def bytesToStr (bs : Bytes) : String := String.mk (bs.map Char.ofNat)

/-- Go `strings.HasSuffix`. -/
def hasSfx (s sfx : String) : Bool := sfx.toList.isSuffixOf s.toList

/-- Go `strings.TrimSuffix`. -/
def trimSfx (s sfx : String) : String :=
  if hasSfx s sfx then String.mk (s.toList.take (s.toList.length - sfx.toList.length))
  else s

/-- Go `filepath.Ext` on the final path element: the suffix starting at
the final dot, empty when the element has no dot. -/
def goExt (name : String) : String :=
  let rev := name.toList.reverse
  let afterDot := rev.takeWhile (fun c => c != '.')
  if afterDot.length = rev.length then "" else String.mk ('.' :: afterDot.reverse)

/-- Go `filepath.Join` for one directory and one name. -/
def joinPath (d n : String) : String := d ++ "/" ++ n

/-- Output name computed by `sealCmd`: strip the final extension from
the base name and append the artifact suffix. -/
def sealOutName (n : String) : String := trimSfx n (goExt n) ++ ".aegis"

/-- Exclusion list hard-coded in `sealCmd` (seal.go line 42). -/
def excludeList : List String := [".git", "vendor", "node_modules", "target"]

/-! Directory entries as seen by `filepath.Walk` (which lstats, so a
symlink is reported as a symlink even when it points at a directory).
A `file` with `none` content is a regular file whose `os.ReadFile`
fails; a `symlink` carries what `os.ReadFile` returns when following
it (`none` for a broken link). -/
mutual
inductive Entry where
  | file : String → Option Bytes → Entry
  | symlink : String → Option Bytes → Entry
  | dir : String → Entries → Entry
inductive Entries where
  | nil : Entries
  | cons : Entry → Entries → Entries
end

/-- Run environment: the crypto instance, the password, and which
`os.WriteFile` / `os.Remove` calls fail. -/
structure Env where
  C : Crypto
  password : Bytes
  writeFails : String → Bool
  removeFails : String → Bool

/-- Mutable state of a `seal` run: the two counters the command keeps
(`filesSealed`, `filesSkipped` — there is no failed counter in
seal.go), the successful writes and removals in order, and the stream
of `(salt, nonce)` pairs produced by `crypto/rand` (which never fails). -/
structure SealSt where
  sealedCount : Nat
  skipped : Nat
  writes : List (String × Bytes)
  removed : List String
  rands : List (Bytes × Bytes)
deriving DecidableEq, Repr

/-- Initial seal state over a given randomness stream. -/
def sealSt0 (rs : List (Bytes × Bytes)) : SealSt := ⟨0, 0, [], [], rs⟩

/-- Mutable state of an `unseal` run: the three counters of unsealCmd
(`filesUnsealed`, `filesFailed`, `filesSkipped`) plus writes and
removals. -/
structure UnsealSt where
  unsealed : Nat
  failed : Nat
  skipped : Nat
  writes : List (String × Bytes)
  removed : List String
deriving DecidableEq, Repr

/-- Initial unseal state. -/
def unsealSt0 : UnsealSt := ⟨0, 0, 0, [], []⟩

/-- Body of the `sealCmd` walk callback for a regular file at
`joinPath d n` (seal.go lines 76-141): skip names already ending in
`.aegis` (counted skipped); on read failure print and continue with no
counter change; otherwise consume fresh salt and nonce, build the
artifact, and write it to the collision-prone output path.  A failed
`os.WriteFile` returns an error from the callback, which
`filepath.Walk` propagates — the whole run aborts (modelled by the
`some` fatal component carrying the output path).  A failed
`os.Remove` only warns; the file still counts as sealed. -/
def sealFileStep (E : Env) (d n : String) (content : Option Bytes) (s : SealSt) :
    SealSt × Option String :=
  let path := joinPath d n
  if hasSfx path ".aegis" then ({ s with skipped := s.skipped + 1 }, none)
  else
    match content with
    | none => (s, none)
    | some plaintext =>
      let salt := (s.rands.headD ([], [])).1
      let nonce := (s.rands.headD ([], [])).2
      let s1 : SealSt := { s with rands := s.rands.tail }
      let art := sealArtifact E.C E.password salt nonce (strToBytes (goExt n)) plaintext
      let out := joinPath d (sealOutName n)
      if E.writeFails out then (s1, some out)
      else
        let s2 : SealSt := { s1 with writes := s1.writes ++ [(out, art)] }
        let s3 : SealSt :=
          if E.removeFails path then s2 else { s2 with removed := s2.removed ++ [path] }
        ({ s3 with sealedCount := s3.sealedCount + 1 }, none)

mutual
/-- One entry of a `seal` walk: an excluded directory is skipped whole
(`filepath.SkipDir`, no counter change), any other directory is
descended into, a symlink is skipped (counted skipped), and a regular
file goes through `sealFileStep`. -/
def sealEntry (E : Env) (d : String) : Entry → SealSt → SealSt × Option String
  | .dir n cs, s =>
    if n ∈ excludeList then (s, none)
    else sealEntries E (joinPath d n) cs s
  | .symlink _ _, s => ({ s with skipped := s.skipped + 1 }, none)
  | .file n c, s => sealFileStep E d n c s
termination_by structural e _ => e
/-- A list of entries of a `seal` walk, stopping at the first fatal
error as `filepath.Walk` does. -/
def sealEntries (E : Env) (d : String) : Entries → SealSt → SealSt × Option String
  | .nil, s => (s, none)
  | .cons e es, s =>
    match sealEntry E d e s with
    | (s', none) => sealEntries E d es s'
    | (s', some msg) => (s', some msg)
termination_by structural es _ => es
end

/-- Body of the `unsealCmd` walk callback for a non-directory entry at
`joinPath d n` (unseal lines 55-146): skip names not ending in
`.aegis`; failed reads, short artifacts and authentication failures
increment `failed` and continue; the legacy branch (no NUL in the
envelope) writes the whole envelope to the suffix-stripped path
IGNORING the write error, then removes the source unconditionally, and
increments `failed`; the normal branch appends the recovered extension,
keeps the source if the write fails, and otherwise removes the source
(a failed remove only warns) and increments `unsealed`. -/
def unsealFileStep (E : Env) (d n : String) (readResult : Option Bytes)
    (s : UnsealSt) : UnsealSt :=
  let path := joinPath d n
  if !hasSfx path ".aegis" then { s with skipped := s.skipped + 1 }
  else
    match readResult with
    | none => { s with failed := s.failed + 1 }
    | some data =>
      match unsealArtifact E.C E.password data with
      | .malformed => { s with failed := s.failed + 1 }
      | .authFailed => { s with failed := s.failed + 1 }
      | .legacy env =>
        let out := trimSfx path ".aegis"
        let s1 := if E.writeFails out then s
                  else { s with writes := s.writes ++ [(out, env)] }
        let s2 := if E.removeFails path then s1
                  else { s1 with removed := s1.removed ++ [path] }
        { s2 with failed := s2.failed + 1 }
      | .ok ext plaintext =>
        let out := trimSfx path ".aegis" ++ bytesToStr ext
        if E.writeFails out then { s with failed := s.failed + 1 }
        else
          let s1 := { s with writes := s.writes ++ [(out, plaintext)] }
          let s2 := if E.removeFails path then s1
                    else { s1 with removed := s1.removed ++ [path] }
          { s2 with unsealed := s2.unsealed + 1 }

mutual
/-- One entry of an `unseal` walk: directories are always descended
into (unsealCmd has no exclusion check), and a symlink falls through to
the same suffix-and-read path as a regular file (unsealCmd has no
symlink check; `os.ReadFile` follows the link). -/
def unsealEntry (E : Env) (d : String) : Entry → UnsealSt → UnsealSt
  | .dir n cs, s => unsealEntries E (joinPath d n) cs s
  | .symlink n t, s => unsealFileStep E d n t s
  | .file n c, s => unsealFileStep E d n c s
termination_by structural e _ => e
/-- A list of entries of an `unseal` walk; no per-entry outcome stops
the walk. -/
def unsealEntries (E : Env) (d : String) : Entries → UnsealSt → UnsealSt
  | .nil, s => s
  | .cons e es, s => unsealEntries E d es (unsealEntry E d e s)
termination_by structural es _ => es
end

/-- Latest content written to path `p`, i.e. what the filesystem holds
there after the run (later `os.WriteFile` calls overwrite earlier ones). -/
def lastWrite (ws : List (String × Bytes)) (p : String) : Option Bytes :=
  ws.foldl (fun acc w => if w.1 == p then some w.2 else acc) none

/-! Concrete material for counterexamples and witnesses. -/

/-- Fixed 16-byte salt used in concrete runs. -/
def salt0 : Bytes := List.replicate 16 2

/-- Fixed 12-byte nonce used in concrete runs. -/
def nonce0 : Bytes := List.replicate 12 3

/-- A second salt. -/
def salt1 : Bytes := List.replicate 16 4

/-- A second nonce. -/
def nonce1 : Bytes := List.replicate 12 5

/-- Environment where every write and remove succeeds. -/
def env0 : Env := ⟨toyCrypto, [1], fun _ => false, fun _ => false⟩

/-- Environment where exactly the write to the given path fails. -/
def envW (p : String) : Env := ⟨toyCrypto, [1], fun q => q == p, fun _ => false⟩

/-- A well-formed artifact under password `[1]`: extension `".t"`,
content `[104]`. -/
def okArt : Bytes :=
  salt0 ++ nonce0 ++ toySeal (toyKdf [1] salt0) nonce0 ([46, 116] ++ 0 :: [104])

/-- A legacy artifact under password `[1]`: its envelope `[104, 105]`
contains no NUL byte. -/
def legacyArt : Bytes :=
  salt0 ++ nonce0 ++ toySeal (toyKdf [1] salt0) nonce0 [104, 105]

/-- An artifact long enough to decode whose tag check fails under
password `[1]`. -/
def badArt : Bytes := salt0 ++ nonce0 ++ [7, 7, 7]

/-- Entries of the name-collision run: two files in lexical walk order
whose names differ only in the final extension. -/
def demoEntries : Entries :=
  .cons (.file "notes.md" (some [6])) (.cons (.file "notes.txt" (some [7])) .nil)

/-- Randomness stream for two-file runs. -/
def demoRands : List (Bytes × Bytes) := [(salt0, nonce0), (salt1, nonce1)]

/-- C3 (code evaluated at the failing input). In the legacy branch of
`unsealCmd` the result of `os.WriteFile` is discarded and `os.Remove`
runs unconditionally: when the write of the recovered plaintext fails,
the sealed source file is deleted anyway — the run ends with no write
performed, the source removed, and the data lost. -/
theorem legacy_write_failure_still_deletes_source :
    unsealEntry (envW "r/x") "r" (.file "x.aegis" (some legacyArt)) unsealSt0
    = ⟨0, 1, 0, [], ["r/x.aegis"]⟩ := by decide

/-- C4 counterexample: a legacy artifact (no NUL in the envelope) is
counted in `filesFailed`, not in `filesUnsealed`, even though its
content is recovered and written — refuting the claim that it is
counted as succeeded. -/
theorem legacy_counted_as_failed :
    unsealEntry env0 "r" (.file "x.aegis" (some legacyArt)) unsealSt0
    = ⟨0, 1, 0, [("r/x", [104, 105])], ["r/x.aegis"]⟩ := by decide

/-- C4 as amended: for every artifact whose decrypted envelope contains
no NUL byte, `unsealCmd` writes the whole envelope (as plaintext with
empty extension) to the suffix-stripped path, deletes the source, and
increments the FAILED counter, leaving the success counter unchanged. -/
theorem legacy_written_but_counted_failed
    (E : Env) (d n : String) (data env : Bytes) (s : UnsealSt)
    (hsfx : hasSfx (joinPath d n) ".aegis" = true)
    (hdec : unsealArtifact E.C E.password data = .legacy env)
    (hw : E.writeFails (trimSfx (joinPath d n) ".aegis") = false)
    (hr : E.removeFails (joinPath d n) = false) :
    unsealEntry E d (.file n (some data)) s =
      { s with failed := s.failed + 1,
               writes := s.writes ++ [(trimSfx (joinPath d n) ".aegis", env)],
               removed := s.removed ++ [joinPath d n] } := by
  simp [unsealEntry, unsealFileStep, hsfx, hdec, hw, hr]

/-- Witness for the amended C4 at a concrete legacy artifact. -/
theorem legacy_written_but_counted_failed_witness :
    unsealEntry env0 "r" (.file "x.aegis" (some legacyArt)) unsealSt0 =
      { unsealSt0 with
          failed := unsealSt0.failed + 1,
          writes := unsealSt0.writes ++
            [(trimSfx (joinPath "r" "x.aegis") ".aegis", [104, 105])],
          removed := unsealSt0.removed ++ [joinPath "r" "x.aegis"] } :=
  legacy_written_but_counted_failed env0 "r" "x.aegis" legacyArt [104, 105] unsealSt0
    (by decide) (by decide) (by decide) (by decide)

/-- C5 counterexample: in a `seal` run, a failed write of one file's
output aborts the entire walk — the second file is never processed
(no write, no counter change) and the run ends fatally — refuting the
claim that only traversal errors are fatal and a single bad file never
aborts the run. -/
theorem seal_write_failure_aborts_run :
    sealEntries (envW "r/a.aegis") "r"
      (.cons (.file "a.txt" (some [1])) (.cons (.file "b.txt" (some [2])) .nil))
      (sealSt0 demoRands)
    = (⟨0, 0, [], [], [(salt1, nonce1)]⟩, some "r/a.aegis") := by decide

/-- C5 as amended: in an `unseal` run no individual file ever aborts
the walk — an artifact failing authentication or malformed only
increments `failed`, the walk always continues with the remaining
entries — whereas in a `seal` run a failed output write is fatal. -/
theorem unseal_bad_file_continues
    (E : Env) (d n : String) (data : Bytes) (es : Entries) (s : UnsealSt)
    (hsfx : hasSfx (joinPath d n) ".aegis" = true)
    (hbad : unsealArtifact E.C E.password data = .authFailed ∨
            unsealArtifact E.C E.password data = .malformed) :
    unsealEntry E d (.file n (some data)) s = { s with failed := s.failed + 1 }
    ∧ unsealEntries E d (.cons (.file n (some data)) es) s
        = unsealEntries E d es { s with failed := s.failed + 1 }
    ∧ ∀ (e : Entry) (es' : Entries) (s' : UnsealSt),
        unsealEntries E d (.cons e es') s' = unsealEntries E d es' (unsealEntry E d e s') := by
  have h1 : unsealEntry E d (.file n (some data)) s = { s with failed := s.failed + 1 } := by
    rcases hbad with h | h <;> simp [unsealEntry, unsealFileStep, hsfx, h]
  exact ⟨h1, by rw [unsealEntries, h1], fun _ _ _ => rfl⟩

/-- Witness for the amended C5 at a concrete tag-rejected artifact. -/
theorem unseal_bad_file_continues_witness :
    unsealEntry env0 "r" (.file "x.aegis" (some badArt)) unsealSt0
      = { unsealSt0 with failed := unsealSt0.failed + 1 }
    ∧ unsealEntries env0 "r" (.cons (.file "x.aegis" (some badArt)) .nil) unsealSt0
        = unsealEntries env0 "r" .nil { unsealSt0 with failed := unsealSt0.failed + 1 }
    ∧ ∀ (e : Entry) (es' : Entries) (s' : UnsealSt),
        unsealEntries env0 "r" (.cons e es') s'
          = unsealEntries env0 "r" es' (unsealEntry env0 "r" e s') :=
  unseal_bad_file_continues env0 "r" "x.aegis" badArt .nil unsealSt0
    (by decide) (Or.inl (by decide))

/-- C6 counterexample: an `unseal` run descends into a directory named
`vendor` and transforms the artifact inside it — the walk callback of
`unsealCmd` performs no exclusion check — refuting the claim that the
exclusion set is applied in both Seal and Unseal runs. -/
theorem unseal_descends_into_excluded_dir :
    unsealEntry env0 "r"
      (.dir "vendor" (.cons (.file "x.aegis" (some okArt)) .nil)) unsealSt0
    = ⟨1, 0, 0, [("r/vendor/x.t", [104])], ["r/vendor/x.aegis"]⟩ := by decide

/-- C6 as amended: the exclusion set applies to `seal` runs only: there
a directory whose name is in the exclusion set is skipped whole before
any transformation, so no file beneath it at any depth is touched;
an `unseal` run descends into every directory unconditionally. -/
theorem excluded_dir_skipped_only_in_seal
    (E : Env) (d n : String) (cs : Entries) (s : SealSt) (h : n ∈ excludeList) :
    sealEntry E d (.dir n cs) s = (s, none)
    ∧ ∀ (E' : Env) (d' n' : String) (cs' : Entries) (s' : UnsealSt),
        unsealEntry E' d' (.dir n' cs') s' = unsealEntries E' (joinPath d' n') cs' s' :=
  ⟨by simp [sealEntry, h], fun _ _ _ _ _ => rfl⟩

/-- Witness for the amended C6 at the directory name `vendor`. -/
theorem excluded_dir_skipped_only_in_seal_witness :
    sealEntry env0 "r" (.dir "vendor" (.cons (.file "a.txt" (some [1])) .nil))
        (sealSt0 demoRands)
      = (sealSt0 demoRands, none)
    ∧ ∀ (E' : Env) (d' n' : String) (cs' : Entries) (s' : UnsealSt),
        unsealEntry E' d' (.dir n' cs') s' = unsealEntries E' (joinPath d' n') cs' s' :=
  excluded_dir_skipped_only_in_seal env0 "r" "vendor"
    (.cons (.file "a.txt" (some [1])) .nil) (sealSt0 demoRands) (by decide)

/-- C7 counterexample: an `unseal` run reads, decrypts and replaces a
symbolic link whose name ends in `.aegis` — the walk callback of
`unsealCmd` performs no symlink check, and `os.ReadFile` follows the
link — refuting the claim that symlinks are skipped in both commands. -/
theorem unseal_follows_aegis_symlink :
    unsealEntry env0 "r" (.symlink "x.aegis" (some okArt)) unsealSt0
    = ⟨1, 0, 0, [("r/x.t", [104])], ["r/x.aegis"]⟩ := by decide

/-- C7 as amended: only `seal` skips symbolic links (counted as
skipped, never read or transformed); `unseal` treats a symlink exactly
like a regular file with the same name and read result, so a symlink
named `*.aegis` is read, decrypted and replaced. -/
theorem symlink_skipped_only_in_seal
    (E : Env) (d n : String) (t : Option Bytes) (s : SealSt) :
    sealEntry E d (.symlink n t) s = ({ s with skipped := s.skipped + 1 }, none)
    ∧ ∀ (E' : Env) (d' n' : String) (t' : Option Bytes) (s' : UnsealSt),
        unsealEntry E' d' (.symlink n' t') s' = unsealEntry E' d' (.file n' t') s' :=
  ⟨rfl, fun _ _ _ _ _ => rfl⟩

/-- C9 counterexample: in a `seal` run, a file whose source bytes
cannot be read changes NO counter at all — `sealCmd` has no failed
counter (it keeps only `filesSealed` and `filesSkipped`) and its read
failure merely prints and continues — refuting the claim that the
failed counter is incremented and that the Seal outcome carries all
three counters. -/
theorem seal_read_failure_not_counted :
    sealEntry env0 "r" (.file "a.txt" none) (sealSt0 demoRands)
    = (sealSt0 demoRands, none) := by decide

/-- C9 as amended: a `seal`-run read failure is silent: the run
continues and the state — including both counters the command keeps,
succeeded and skipped — is completely unchanged; only `unseal` has a
failed counter. -/
theorem seal_read_failure_silent
    (E : Env) (d n : String) (s : SealSt)
    (hsfx : hasSfx (joinPath d n) ".aegis" = false) :
    sealEntry E d (.file n none) s = (s, none) := by
  simp [sealEntry, sealFileStep, hsfx]

/-- Witness for the amended C9 at a concrete unreadable file. -/
theorem seal_read_failure_silent_witness :
    sealEntry env0 "r" (.file "a.txt" none) (sealSt0 demoRands)
      = (sealSt0 demoRands, none) :=
  seal_read_failure_silent env0 "r" "a.txt" (sealSt0 demoRands) (by decide)

/-- C10. Sealed-output name collision: the output path of `sealCmd`
depends only on the directory and the extension-stripped base name, so
two files whose names differ only in their final extension map to the
same artifact path; in a run over `notes.md` and `notes.txt` both
writes target `r/notes.aegis`, the artifact that remains there is the
second file's, and both source files are deleted — the first file's
content is unrecoverable. -/
theorem seal_output_name_collision
    (d n1 n2 : String)
    (h : trimSfx n1 (goExt n1) = trimSfx n2 (goExt n2)) :
    joinPath d (sealOutName n1) = joinPath d (sealOutName n2)
    ∧ (sealEntries env0 "r" demoEntries (sealSt0 demoRands)).1.writes.map Prod.fst
        = ["r/notes.aegis", "r/notes.aegis"]
    ∧ lastWrite (sealEntries env0 "r" demoEntries (sealSt0 demoRands)).1.writes
        "r/notes.aegis"
        = some (sealArtifact toyCrypto [1] salt1 nonce1 (strToBytes ".txt") [7])
    ∧ (sealEntries env0 "r" demoEntries (sealSt0 demoRands)).1.removed
        = ["r/notes.md", "r/notes.txt"] := by
  refine ⟨?_, by decide, by decide, by decide⟩
  simp [joinPath, sealOutName, h]

/-- Witness for C10 at the concrete names of the claim. -/
theorem seal_output_name_collision_witness :
    joinPath "r" (sealOutName "notes.txt") = joinPath "r" (sealOutName "notes.md")
    ∧ (sealEntries env0 "r" demoEntries (sealSt0 demoRands)).1.writes.map Prod.fst
        = ["r/notes.aegis", "r/notes.aegis"]
    ∧ lastWrite (sealEntries env0 "r" demoEntries (sealSt0 demoRands)).1.writes
        "r/notes.aegis"
        = some (sealArtifact toyCrypto [1] salt1 nonce1 (strToBytes ".txt") [7])
    ∧ (sealEntries env0 "r" demoEntries (sealSt0 demoRands)).1.removed
        = ["r/notes.md", "r/notes.txt"] :=
  seal_output_name_collision "r" "notes.txt" "notes.md" (by decide)

end Aegis
